import Mathlib

/-!
# Shallow embedding of the `bus` package (steinfletcher/bus)

This file embeds the in-process publish/subscribe dispatcher of `bus.go`
into Lean and proves properties of it.

Modelling choices:
* `reflect` type strings are modelled by `GoType` with `GoType.string`
  (a pointer type prepends `"*"`, exactly as `reflect.Type.String` does).
* A handler's callable (`reflect.Value`) is modelled by a Lean function
  `Ctx → Msg → List (Option GoError)` returning the list of result values
  that `reflect.Value.Call` would return (`[]` for a function with no
  return values, `[some e]` for one returning error `e`, `[none]` for one
  returning a nil error).  Each callable also carries a ghost identity
  `hid : Nat` (the identity of the `reflect.Value`) so that invocation
  traces can name which handler ran.
* The async `chan []reflect.Value` is modelled by the list of enqueued,
  not-yet-drained parameter pairs plus the channel capacity `queueCap`.
* `Publish` returns the updated bus, the list of observable events
  (async enqueues and sync invocations, in program order) and its result.
  A Go runtime panic (e.g. indexing an empty results slice) is modelled
  by the `PublishResult.panicked` constructor.
-/

namespace Bus

abbrev Ctx := Nat
abbrev GoError := String
abbrev TypeKey := String

/-- A Go type as seen by `reflect`; `ptr t` is `*t`. -/
inductive GoType where
  | named : String → GoType
  | ptr : GoType → GoType
deriving DecidableEq, Repr

/-- `reflect.Type.String()`: a pointer type is rendered with a leading `*`. -/
def GoType.string : GoType → String
  | .named s => s
  | .ptr t => "*" ++ t.string

/-- A published message: its dynamic type (the routing key source) and a payload. -/
structure Msg where
  type : GoType
  payload : Nat
deriving DecidableEq, Repr

/-- The `handler` struct of `bus.go`: the callable (with ghost identity `hid`
and behaviour `call`), the sync/async flag, and the async queue (contents
plus channel capacity; a sync handler's `queue` is the nil channel, modelled
as an empty list with capacity 0). -/
structure Handler where
  hid : Nat
  call : Ctx → Msg → List (Option GoError)
  isAsync : Bool
  queue : List (Ctx × Msg)
  queueCap : Nat

/-- A value passed to `Subscribe`: its reflect kind (`isFunc`), its reflect
type string (used in the "not a function" error), its parameter types, and
its behaviour when called. -/
structure FnVal where
  isFunc : Bool
  typeName : String
  args : List GoType
  call : Ctx → Msg → List (Option GoError)

def defaultAsyncHandlerQueueSize : Nat := 1000

/-- `var ErrHandlerNotFound = errors.New("handler not found")` -/
def ErrHandlerNotFound : GoError := "handler not found"

/-- The `eventBus` struct: the registry (`handlers.items`, an association
list from type key to the registration-ordered handler list) and the
configured queue size. -/
structure EventBus where
  handlers : List (TypeKey × List Handler)
  queueSize : Nat

/-- `New`: variadic `queueSize` modelled as a list; the size defaults to
`defaultAsyncHandlerQueueSize` and is overridden by the first argument. -/
def New (queueSize : List Nat) : EventBus :=
  { handlers := [],
    queueSize :=
      if 0 < queueSize.length then queueSize.getD 0 defaultAsyncHandlerQueueSize
      else defaultAsyncHandlerQueueSize }

/-- `handlers.Add`: `cm.items[key] = append(cm.items[key], value)` —
appends to the key's list, creating it if absent. -/
def handlersAdd (items : List (TypeKey × List Handler)) (key : TypeKey)
    (h : Handler) : List (TypeKey × List Handler) :=
  match items with
  | [] => [(key, [h])]
  | (k, v) :: rest =>
      if k = key then (k, v ++ [h]) :: rest
      else (k, v) :: handlersAdd rest key h

/-- `handlers.Get`: map lookup returning `(value, ok)`. -/
def handlersGet (items : List (TypeKey × List Handler)) (key : TypeKey) :
    Option (List Handler) :=
  match items with
  | [] => none
  | (k, v) :: rest => if k = key then some v else handlersGet rest key

/-- `validateHandler`: not a function / fewer than two parameters / first
parameter not `context.Context`, with the exact error messages of the source. -/
def validateHandler (fn : FnVal) : Option GoError :=
  if fn.isFunc = false then
    some ("'" ++ fn.typeName ++ "' is not a function")
  else if fn.args.length < 2 then
    some "invalid number of handler arguments. Must be context.Context followed by a struct"
  else if (fn.args.getD 0 (.named "")).string ≠ "context.Context" then
    some "first argument must be context.Context"
  else
    none

/-- `eventBus.subscribe`: validate, key on `reflect.TypeOf(fn).In(1).String()`,
build the handler record (async handlers get a queue of capacity
`defaultAsyncHandlerQueueSize` — the source uses the constant here, not
`e.queueSize`), and `Add` it.  Returns the updated bus and the error. -/
def subscribe (e : EventBus) (fn : FnVal) (hid : Nat) (isAsync : Bool) :
    EventBus × Option GoError :=
  match validateHandler fn with
  | some err => (e, some err)
  | none =>
      let handlerArgTypeName := (fn.args.getD 1 (.named "")).string
      let h : Handler :=
        { hid := hid, call := fn.call, isAsync := isAsync,
          queue := [],
          queueCap := if isAsync then defaultAsyncHandlerQueueSize else 0 }
      ({ e with handlers := handlersAdd e.handlers handlerArgTypeName h }, none)

def Subscribe (e : EventBus) (fn : FnVal) (hid : Nat) : EventBus × Option GoError :=
  subscribe e fn hid false

def SubscribeAsync (e : EventBus) (fn : FnVal) (hid : Nat) : EventBus × Option GoError :=
  subscribe e fn hid true

/-- Outcome of a `Must` variant: normal return with the updated bus, or a panic
carrying the registration error. -/
inductive MustResult where
  | ok (e : EventBus)
  | panicked (err : GoError)

/-- `MustSubscribe`: panics on a subscription error. -/
def MustSubscribe (e : EventBus) (fn : FnVal) (hid : Nat) : MustResult :=
  match subscribe e fn hid false with
  | (e2, none) => .ok e2
  | (_, some err) => .panicked err

/-- `MustSubscribeAsync`: panics on a subscription error. -/
def MustSubscribeAsync (e : EventBus) (fn : FnVal) (hid : Nat) : MustResult :=
  match subscribe e fn hid true with
  | (e2, none) => .ok e2
  | (_, some err) => .panicked err

/-- An observable event of a `Publish` call: an async enqueue of the params
onto a handler's queue, or a synchronous in-line invocation. -/
inductive Event where
  | enqueue (hid : Nat) (c : Ctx) (m : Msg)
  | invoke (hid : Nat) (c : Ctx) (m : Msg)
deriving DecidableEq, Repr

/-- Result of `Publish`: nil error, an error value, or a Go runtime panic. -/
inductive PublishResult where
  | ok
  | err (e : GoError)
  | panicked (reason : String)
deriving DecidableEq, Repr

/-- The sync phase's invocation trace: each non-async handler is called in
order; the chain ends after the first handler whose `result[0]` is a non-nil
error, or after a handler returning no values (whereupon `result[0]` faults). -/
def runSyncEvents (c : Ctx) (m : Msg) : List Handler → List Event
  | [] => []
  | h :: rest =>
      if h.isAsync then runSyncEvents c m rest
      else
        match h.call c m with
        | [] => [.invoke h.hid c m]
        | some _ :: _ => [.invoke h.hid c m]
        | none :: _ => .invoke h.hid c m :: runSyncEvents c m rest

/-- The sync phase's outcome: first non-nil `result[0]` is returned as the
error; a handler with no return values makes `result[0]` panic
(index out of range); otherwise nil. -/
def runSyncResult (c : Ctx) (m : Msg) : List Handler → PublishResult
  | [] => .ok
  | h :: rest =>
      if h.isAsync then runSyncResult c m rest
      else
        match h.call c m with
        | [] => .panicked "runtime error: index out of range [0] with length 0"
        | some e :: _ => .err e
        | none :: _ => runSyncResult c m rest

/-- The async phase: push `(ctx, msg)` onto the queue of every async handler
in the key's list (sync handlers untouched). -/
def enqueueAsync (c : Ctx) (m : Msg) (hs : List Handler) : List Handler :=
  hs.map fun h =>
    if h.isAsync then { h with queue := h.queue ++ [(c, m)] } else h

/-- The enqueue events emitted by the async phase, in list order. -/
def asyncEnqueueEvents (c : Ctx) (m : Msg) (hs : List Handler) : List Event :=
  (hs.filter fun h => h.isAsync).map fun h => .enqueue h.hid c m

/-- Replace the handler list stored under `key` (the registry mutation the
async phase performs). -/
def updateKey (items : List (TypeKey × List Handler)) (key : TypeKey)
    (f : List Handler → List Handler) : List (TypeKey × List Handler) :=
  match items with
  | [] => []
  | (k, v) :: rest =>
      if k = key then (k, f v) :: updateKey rest key f
      else (k, v) :: updateKey rest key f

/-- `eventBus.Publish`: key on `reflect.TypeOf(msg).String()`; if absent,
return `ErrHandlerNotFound` with nothing invoked and nothing enqueued;
otherwise run the async enqueue phase over the key's handlers, then the
sync phase.  Returns (updated bus, event trace, result). -/
def Publish (e : EventBus) (c : Ctx) (m : Msg) :
    EventBus × List Event × PublishResult :=
  match handlersGet e.handlers m.type.string with
  | none => (e, [], .err ErrHandlerNotFound)
  | some hs =>
      ({ e with handlers := updateKey e.handlers m.type.string (enqueueAsync c m) },
       asyncEnqueueEvents c m hs ++ runSyncEvents c m hs,
       runSyncResult c m hs)

/-- The dedicated worker of an async handler:
`for params := range handler.queue { handler.Handler.Call(params) }` —
drains the queue in FIFO order, invoking the handler once per item and
discarding every return value. -/
def workerRun (h : Handler) : List Event :=
  h.queue.map fun p => .invoke h.hid p.1 p.2

/-! ## Basic lemmas about the registry and the dispatch phases -/

lemma publish_of_get_none {e : EventBus} {c : Ctx} {m : Msg}
    (h : handlersGet e.handlers m.type.string = none) :
    Publish e c m = (e, [], .err ErrHandlerNotFound) := by
  unfold Publish
  rw [h]

lemma publish_of_get_some {e : EventBus} {c : Ctx} {m : Msg} {hs : List Handler}
    (h : handlersGet e.handlers m.type.string = some hs) :
    Publish e c m =
      ({ e with handlers := updateKey e.handlers m.type.string (enqueueAsync c m) },
       asyncEnqueueEvents c m hs ++ runSyncEvents c m hs,
       runSyncResult c m hs) := by
  unfold Publish
  rw [h]

lemma handlersGet_updateKey {items : List (TypeKey × List Handler)} {key : TypeKey}
    {hs : List Handler} (f : List Handler → List Handler)
    (h : handlersGet items key = some hs) :
    handlersGet (updateKey items key f) key = some (f hs) := by
  induction items with
  | nil => simp [handlersGet] at h
  | cons kv rest ih =>
      obtain ⟨k, v⟩ := kv
      by_cases hk : k = key
      · subst hk
        simp only [handlersGet, if_pos rfl] at h
        cases h
        simp [updateKey, handlersGet]
      · simp only [handlersGet, if_neg hk] at h
        simpa [updateKey, handlersGet, hk] using ih h

/-- When every sync handler in the list returns a single nil error, the sync
phase succeeds. -/
lemma runSyncResult_all_nil {c : Ctx} {m : Msg} {hs : List Handler}
    (hall : ∀ h ∈ hs, h.isAsync = false → h.call c m = [none]) :
    runSyncResult c m hs = .ok := by
  induction hs with
  | nil => rfl
  | cons h rest ih =>
      have hrest : ∀ g ∈ rest, g.isAsync = false → g.call c m = [none] :=
        fun g hg => hall g (List.mem_cons_of_mem _ hg)
      by_cases ha : h.isAsync
      · simp [runSyncResult, ha, ih hrest]
      · have hc := hall h (List.mem_cons_self _ _) (by simpa using ha)
        simp [runSyncResult, ha, hc, ih hrest]

/-- When every sync handler in the list returns a single nil error, the sync
phase invokes exactly the sync handlers, in list order. -/
lemma runSyncEvents_all_nil {c : Ctx} {m : Msg} {hs : List Handler}
    (hall : ∀ h ∈ hs, h.isAsync = false → h.call c m = [none]) :
    runSyncEvents c m hs =
      (hs.filter fun h => !h.isAsync).map fun h => Event.invoke h.hid c m := by
  induction hs with
  | nil => rfl
  | cons h rest ih =>
      have hrest : ∀ g ∈ rest, g.isAsync = false → g.call c m = [none] :=
        fun g hg => hall g (List.mem_cons_of_mem _ hg)
      by_cases ha : h.isAsync
      · simp [runSyncEvents, ha, ih hrest, List.filter]
      · have hc := hall h (List.mem_cons_self _ _) (by simpa using ha)
        simp [runSyncEvents, ha, hc, ih hrest, List.filter]

/-- When the handlers before `hk` all return nil and `hk` (a sync handler)
returns error `er`, the sync phase stops at `hk` and reports `er`. -/
lemma runSyncResult_first_err {c : Ctx} {m : Msg}
    {pre post : List Handler} {hk : Handler} {er : GoError} {tl : List (Option GoError)}
    (hpre : ∀ h ∈ pre, h.isAsync = false → h.call c m = [none])
    (hkSync : hk.isAsync = false) (hkCall : hk.call c m = some er :: tl) :
    runSyncResult c m (pre ++ hk :: post) = .err er := by
  induction pre with
  | nil => simp [runSyncResult, hkSync, hkCall]
  | cons p pre' ih =>
      have hpre' : ∀ h ∈ pre', h.isAsync = false → h.call c m = [none] :=
        fun g hg => hpre g (List.mem_cons_of_mem _ hg)
      by_cases ha : p.isAsync
      · simp [runSyncResult, ha, ih hpre']
      · have hc := hpre p (List.mem_cons_self _ _) (by simpa using ha)
        simp [runSyncResult, ha, hc, ih hpre']

/-- In the same situation, the invocation trace is exactly the sync handlers
of `pre` (in order) followed by `hk`; nothing after `hk` is invoked. -/
lemma runSyncEvents_first_err {c : Ctx} {m : Msg}
    {pre post : List Handler} {hk : Handler} {er : GoError} {tl : List (Option GoError)}
    (hpre : ∀ h ∈ pre, h.isAsync = false → h.call c m = [none])
    (hkSync : hk.isAsync = false) (hkCall : hk.call c m = some er :: tl) :
    runSyncEvents c m (pre ++ hk :: post) =
      ((pre.filter fun h => !h.isAsync) ++ [hk]).map fun h => Event.invoke h.hid c m := by
  induction pre with
  | nil => simp [runSyncEvents, hkSync, hkCall]
  | cons p pre' ih =>
      have hpre' : ∀ h ∈ pre', h.isAsync = false → h.call c m = [none] :=
        fun g hg => hpre g (List.mem_cons_of_mem _ hg)
      by_cases ha : p.isAsync
      · simp [runSyncEvents, ha, ih hpre', List.filter]
      · have hc := hpre p (List.mem_cons_self _ _) (by simpa using ha)
        simp [runSyncEvents, ha, hc, ih hpre', List.filter]

/-- The sync phase never consults async handlers: its outcome is that of the
sync sublist alone. -/
lemma runSyncResult_filter (c : Ctx) (m : Msg) (hs : List Handler) :
    runSyncResult c m hs = runSyncResult c m (hs.filter fun h => !h.isAsync) := by
  induction hs with
  | nil => rfl
  | cons h rest ih =>
      by_cases ha : h.isAsync
      · simp [runSyncResult, ha, ih, List.filter]
      · cases hc : h.call c m with
        | nil => simp [runSyncResult, ha, hc, List.filter]
        | cons r tl =>
            cases r with
            | none => simp [runSyncResult, ha, hc, List.filter, ih]
            | some e => simp [runSyncResult, ha, hc, List.filter]

/-- Every event of the sync phase is an invocation with the published pair. -/
lemma runSyncEvents_mem {c : Ctx} {m : Msg} {hs : List Handler} {ev : Event}
    (h : ev ∈ runSyncEvents c m hs) : ∃ hid, ev = .invoke hid c m := by
  induction hs with
  | nil => simp [runSyncEvents] at h
  | cons g rest ih =>
      by_cases ha : g.isAsync
      · simp only [runSyncEvents, ha, if_pos] at h
        exact ih h
      · cases hc : g.call c m with
        | nil =>
            simp [runSyncEvents, ha, hc] at h
            exact ⟨g.hid, h⟩
        | cons r tl =>
            cases r with
            | some e =>
                simp [runSyncEvents, ha, hc] at h
                exact ⟨g.hid, h⟩
            | none =>
                simp [runSyncEvents, ha, hc] at h
                rcases h with h | h
                · exact ⟨g.hid, h⟩
                · exact ih h

/-! ## Concrete values used by witnesses -/

def ctxType : GoType := .named "context.Context"

def queryType : GoType := .named "bus_test.GetUserQuery"

/-- A well-shaped handler value: a function `(context.Context, second) → …`
with behaviour `f`. -/
def mkFn (second : GoType) (f : Ctx → Msg → List (Option GoError)) : FnVal :=
  { isFunc := true, typeName := "func", args := [ctxType, second], call := f }

def msgQ : Msg := ⟨queryType, 0⟩

def fnNilA : FnVal := mkFn queryType fun _ _ => [none]

def fnBoom : FnVal := mkFn queryType fun _ _ => [some "boom"]

def fnNilB : FnVal := mkFn queryType fun _ _ => [none]

/-- Three sync handlers registered in order for the same type key. -/
def busChain : EventBus :=
  (Subscribe (Subscribe (Subscribe (New []) fnNilA 1).1 fnBoom 2).1 fnNilB 3).1

def hNilA : Handler := ⟨1, fun _ _ => [none], false, [], 0⟩

def hBoom : Handler := ⟨2, fun _ _ => [some "boom"], false, [], 0⟩

def hNilB : Handler := ⟨3, fun _ _ => [none], false, [], 0⟩

/-! ## Claim theorems -/

/-- C2: for a message whose exact type key has no registered handler,
`Publish` returns `ErrHandlerNotFound`, emits no event (nothing invoked,
nothing enqueued) and leaves the bus state unchanged. -/
theorem publish_no_handler_leaves_state_unchanged
    (e : EventBus) (c : Ctx) (m : Msg)
    (h : handlersGet e.handlers m.type.string = none) :
    Publish e c m = (e, [], .err ErrHandlerNotFound) :=
  publish_of_get_none h

/-- Witness for C2: a fresh bus and a concrete message. -/
theorem publish_no_handler_leaves_state_unchanged_witness :
    Publish (New []) 0 msgQ = (New [], [], .err ErrHandlerNotFound) :=
  publish_no_handler_leaves_state_unchanged (New []) 0 msgQ rfl

/-- C1: with the key's handler list `hs`, (a) if every sync handler returns a
single nil error then `Publish` succeeds and the sync-phase trace invokes
exactly the sync handlers in registration order with `(c, m)`; (b) if the
handlers before `hk` all return nil and the sync handler `hk` returns error
`er`, then `Publish` returns `er` unchanged and the trace stops at `hk` —
nothing after `hk` is invoked. -/
theorem publish_sync_order_and_shortcircuit
    (e : EventBus) (c : Ctx) (m : Msg) (hs : List Handler)
    (hget : handlersGet e.handlers m.type.string = some hs) :
    ((∀ h ∈ hs, h.isAsync = false → h.call c m = [none]) →
        (Publish e c m).2.2 = .ok ∧
        (Publish e c m).2.1 = asyncEnqueueEvents c m hs ++
          ((hs.filter fun h => !h.isAsync).map fun h => Event.invoke h.hid c m))
    ∧ (∀ pre hk post er tl, hs = pre ++ hk :: post →
        (∀ h ∈ pre, h.isAsync = false → h.call c m = [none]) →
        hk.isAsync = false → hk.call c m = some er :: tl →
        (Publish e c m).2.2 = .err er ∧
        (Publish e c m).2.1 = asyncEnqueueEvents c m hs ++
          (((pre.filter fun h => !h.isAsync) ++ [hk]).map fun h =>
            Event.invoke h.hid c m)) := by
  rw [publish_of_get_some hget]
  constructor
  · intro hall
    exact ⟨runSyncResult_all_nil hall, by rw [runSyncEvents_all_nil hall]⟩
  · intro pre hk post er tl hsplit hpre hkS hkC
    subst hsplit
    exact ⟨runSyncResult_first_err hpre hkS hkC,
           by rw [runSyncEvents_first_err hpre hkS hkC]⟩

/-- Witness for C1: three sync handlers; the second errors with "boom"; the
first two are invoked in order, the third never runs, and `Publish` returns
"boom". -/
theorem publish_sync_order_and_shortcircuit_witness :
    (Publish busChain 0 msgQ).2.2 = .err "boom" ∧
    (Publish busChain 0 msgQ).2.1 =
      [Event.invoke 1 0 msgQ, Event.invoke 2 0 msgQ] := by
  have h := (publish_sync_order_and_shortcircuit busChain 0 msgQ
      [hNilA, hBoom, hNilB] rfl).2 [hNilA] hBoom [hNilB] "boom" [] rfl
      (by intro g hg _; rcases List.mem_singleton.mp hg with rfl; rfl)
      rfl rfl
  refine ⟨h.1, ?_⟩
  rw [h.2]
  rfl

/-- C3: `subscribe` fails exactly when the value is not a function, has
fewer than two parameters, or its first parameter is not `context.Context`;
each failure carries the source's descriptive message, and on failure the
registry is unchanged. -/
theorem subscribe_invalid_handler_rejected
    (e : EventBus) (fn : FnVal) (hid : Nat) (isAsync : Bool) :
    ((subscribe e fn hid isAsync).2.isSome ↔
      (fn.isFunc = false ∨ fn.args.length < 2 ∨
       (fn.args.getD 0 (.named "")).string ≠ "context.Context"))
    ∧ (∀ er, (subscribe e fn hid isAsync).2 = some er →
        (subscribe e fn hid isAsync).1 = e)
    ∧ (fn.isFunc = false →
        (subscribe e fn hid isAsync).2 =
          some ("'" ++ fn.typeName ++ "' is not a function"))
    ∧ (fn.isFunc = true → fn.args.length < 2 →
        (subscribe e fn hid isAsync).2 =
          some "invalid number of handler arguments. Must be context.Context followed by a struct")
    ∧ (fn.isFunc = true → ¬ fn.args.length < 2 →
        (fn.args.getD 0 (.named "")).string ≠ "context.Context" →
        (subscribe e fn hid isAsync).2 =
          some "first argument must be context.Context") := by
  by_cases h1 : fn.isFunc = false <;>
    by_cases h2 : fn.args.length < 2 <;>
      by_cases h3 : (fn.args[0]?.getD (GoType.named "")).string = "context.Context" <;>
        simp [subscribe, validateHandler, h1, h2, h3]

/-- Witness for C3: subscribing the non-function value `"not a func"` fails
with the descriptive message and leaves the fresh bus unchanged. -/
theorem subscribe_invalid_handler_rejected_witness :
    (subscribe (New []) ⟨false, "string", [], fun _ _ => []⟩ 0 false).2 =
      some ("'" ++ "string" ++ "' is not a function") ∧
    (subscribe (New []) ⟨false, "string", [], fun _ _ => []⟩ 0 false).1 = New [] := by
  have h := subscribe_invalid_handler_rejected (New [])
      ⟨false, "string", [], fun _ _ => []⟩ 0 false
  exact ⟨h.2.2.1 rfl, h.2.1 _ (h.2.2.1 rfl)⟩

def fnErr : FnVal := mkFn queryType fun _ _ => [some "some error"]

def fnAsyncNoRet : FnVal := mkFn queryType fun _ _ => []

/-- One failing sync handler followed by one async handler, same type key. -/
def busMix : EventBus :=
  (SubscribeAsync (Subscribe (New []) fnErr 4).1 fnAsyncNoRet 5).1

def hErr : Handler := ⟨4, fun _ _ => [some "some error"], false, [], 0⟩

def hAsync : Handler := ⟨5, fun _ _ => [], true, [], 1000⟩

/-- C4: with the key present, the event trace of `Publish` is the async
enqueues (one per async handler of the key, with the published pair)
followed by the sync invocations — every enqueue precedes every invocation;
the post-state stores the enqueue-updated handler list regardless of the
sync phase's outcome; and each async handler's queue has gained `(c, m)`,
so its worker eventually invokes it with `(c, m)`. -/
theorem publish_enqueues_async_before_sync
    (e : EventBus) (c : Ctx) (m : Msg) (hs : List Handler)
    (hget : handlersGet e.handlers m.type.string = some hs) :
    (Publish e c m).2.1 = asyncEnqueueEvents c m hs ++ runSyncEvents c m hs
    ∧ (∀ ev ∈ asyncEnqueueEvents c m hs, ∃ hid, ev = .enqueue hid c m)
    ∧ (∀ ev ∈ runSyncEvents c m hs, ∃ hid, ev = .invoke hid c m)
    ∧ handlersGet (Publish e c m).1.handlers m.type.string =
        some (enqueueAsync c m hs)
    ∧ (∀ h ∈ hs, h.isAsync = true →
        ({ h with queue := h.queue ++ [(c, m)] } : Handler) ∈ enqueueAsync c m hs ∧
        Event.invoke h.hid c m ∈ workerRun { h with queue := h.queue ++ [(c, m)] }) := by
  refine ⟨by rw [publish_of_get_some hget], ?_, ?_, ?_, ?_⟩
  · intro ev hev
    rcases List.mem_map.mp hev with ⟨g, _, rfl⟩
    exact ⟨g.hid, rfl⟩
  · intro ev hev
    exact runSyncEvents_mem hev
  · rw [publish_of_get_some hget]
    exact handlersGet_updateKey _ hget
  · intro h hm hasync
    constructor
    · exact List.mem_map.mpr ⟨h, hm, by simp [hasync]⟩
    · exact List.mem_map.mpr ⟨(c, m), by simp, rfl⟩

/-- Witness for C4: the spec's scenario — a failing sync handler and an async
handler for the same key; the async handler is enqueued first and its worker
runs it, even though the sync phase reports the error. -/
theorem publish_enqueues_async_before_sync_witness :
    (Publish busMix 0 msgQ).2.1 = [Event.enqueue 5 0 msgQ, Event.invoke 4 0 msgQ] ∧
    (Publish busMix 0 msgQ).2.2 = .err "some error" ∧
    handlersGet (Publish busMix 0 msgQ).1.handlers msgQ.type.string =
      some [hErr, { hAsync with queue := [(0, msgQ)] }] ∧
    Event.invoke 5 0 msgQ ∈ workerRun { hAsync with queue := [(0, msgQ)] } := by
  have h := publish_enqueues_async_before_sync busMix 0 msgQ [hErr, hAsync] rfl
  refine ⟨?_, rfl, ?_, ?_⟩
  · rw [h.1]; rfl
  · rw [h.2.2.2.1]; rfl
  · exact (h.2.2.2.2 hAsync (by simp) rfl).2

/-- C5: the result of `Publish` is determined by the sync handlers alone —
it equals the sync phase run on the sync sublist; in particular if every
handler under the key is async, `Publish` returns no error, whatever those
handlers return; and the async worker's behaviour is unchanged by the
handler's return values (it discards them). -/
theorem async_handler_errors_never_surface
    (e : EventBus) (c : Ctx) (m : Msg) (hs : List Handler)
    (hget : handlersGet e.handlers m.type.string = some hs) :
    (Publish e c m).2.2 = runSyncResult c m (hs.filter fun h => !h.isAsync)
    ∧ ((∀ h ∈ hs, h.isAsync = true) → (Publish e c m).2.2 = .ok)
    ∧ (∀ (h : Handler) (g : Ctx → Msg → List (Option GoError)),
        workerRun { h with call := g } = workerRun h) := by
  refine ⟨?_, ?_, fun h g => rfl⟩
  · rw [publish_of_get_some hget]
    exact runSyncResult_filter c m hs
  · intro hall
    rw [publish_of_get_some hget]
    exact runSyncResult_all_nil fun h hm hf => absurd (hall h hm) (by simp [hf])

def fnAsyncErr : FnVal := mkFn queryType fun _ _ => [some "failed to get user"]

def busAsyncOnly : EventBus := (SubscribeAsync (New []) fnAsyncErr 6).1

def hAsyncErr : Handler := ⟨6, fun _ _ => [some "failed to get user"], true, [], 1000⟩

/-- Witness for C5: only an error-returning async handler is registered;
`Publish` still returns no error. -/
theorem async_handler_errors_never_surface_witness :
    (Publish busAsyncOnly 0 msgQ).2.2 = .ok := by
  exact (async_handler_errors_never_surface busAsyncOnly 0 msgQ [hAsyncErr] rfl).2.1
    (by intro h hm; rcases List.mem_singleton.mp hm with rfl; rfl)

/-- The `*` prefix makes a pointer type's `reflect` string differ from the
pointee's. -/
lemma ptr_string_ne (t : GoType) : (GoType.ptr t).string ≠ t.string := by
  intro h
  have hl : ("*" ++ t.string).length = t.string.length := congrArg String.length h
  rw [String.length_append] at hl
  have h1 : ("*" : String).length = 1 := rfl
  omega

/-- `validateHandler` accepts every well-shaped two-parameter function. -/
lemma validate_mkFn (second : GoType) (f : Ctx → Msg → List (Option GoError)) :
    validateHandler (mkFn second f) = none := rfl

/-- `subscribe` of a well-shaped function registers it under the reflect
string of its second parameter. -/
lemma subscribe_mkFn (e : EventBus) (second : GoType)
    (f : Ctx → Msg → List (Option GoError)) (hid : Nat) (isAsync : Bool) :
    subscribe e (mkFn second f) hid isAsync =
      (EventBus.mk
        (handlersAdd e.handlers second.string
          (Handler.mk hid f isAsync []
            (if isAsync then defaultAsyncHandlerQueueSize else 0)))
        e.queueSize,
       none) := rfl

/-- C7: value and pointer forms of a type are distinct routing keys: for any
type `t`, a handler registered for `*t` is not found when a `t`-typed message
is published (and vice versa) — `Publish` returns `ErrHandlerNotFound`,
invokes nothing, enqueues nothing and leaves the bus unchanged. -/
theorem pointer_and_value_routing_keys_distinct
    (t : GoType) (f g : Ctx → Msg → List (Option GoError)) (c : Ctx) (p : Nat) :
    (GoType.ptr t).string ≠ t.string
    ∧ Publish (Subscribe (New []) (mkFn (.ptr t) f) 1).1 c ⟨t, p⟩ =
        ((Subscribe (New []) (mkFn (.ptr t) f) 1).1, [], .err ErrHandlerNotFound)
    ∧ Publish (Subscribe (New []) (mkFn t g) 1).1 c ⟨.ptr t, p⟩ =
        ((Subscribe (New []) (mkFn t g) 1).1, [], .err ErrHandlerNotFound) := by
  refine ⟨ptr_string_ne t, ?_, ?_⟩
  · apply publish_of_get_none
    show handlersGet ((subscribe (New []) (mkFn (.ptr t) f) 1 false).1).handlers
        (GoType.string t) = none
    rw [subscribe_mkFn]
    simp [New, handlersAdd, handlersGet, ptr_string_ne t]
  · apply publish_of_get_none
    show handlersGet ((subscribe (New []) (mkFn t g) 1 false).1).handlers
        (GoType.string (.ptr t)) = none
    rw [subscribe_mkFn]
    simp [New, handlersAdd, handlersGet, (ptr_string_ne t).symm]

/-- C9: the `Must` variants perform exactly the registration of their
non-`Must` counterparts: on success they return normally with the same bus;
on a registration error they panic with that same error. -/
theorem must_variants_match_subscribe (e : EventBus) (fn : FnVal) (hid : Nat) :
    (∀ e2, subscribe e fn hid false = (e2, none) →
        MustSubscribe e fn hid = .ok e2 ∧ Subscribe e fn hid = (e2, none))
    ∧ (∀ e2 er, subscribe e fn hid false = (e2, some er) →
        MustSubscribe e fn hid = .panicked er)
    ∧ (∀ e2, subscribe e fn hid true = (e2, none) →
        MustSubscribeAsync e fn hid = .ok e2 ∧ SubscribeAsync e fn hid = (e2, none))
    ∧ (∀ e2 er, subscribe e fn hid true = (e2, some er) →
        MustSubscribeAsync e fn hid = .panicked er) := by
  refine ⟨fun e2 h => ?_, fun e2 er h => ?_, fun e2 h => ?_, fun e2 er h => ?_⟩ <;>
    simp [MustSubscribe, MustSubscribeAsync, Subscribe, SubscribeAsync, h]

def busOne : EventBus := (Subscribe (New []) fnNilA 1).1

def strVal : FnVal := ⟨false, "string", [], fun _ _ => []⟩

/-- Witness for C9: a valid handler registers identically through
`MustSubscribe`; the non-function value `"not a func"` makes it panic with
the same `InvalidHandlerError` message `Subscribe` would return. -/
theorem must_variants_match_subscribe_witness :
    MustSubscribe (New []) fnNilA 1 = .ok busOne ∧
    MustSubscribe (New []) strVal 0 = .panicked ("'" ++ "string" ++ "' is not a function") := by
  constructor
  · exact ((must_variants_match_subscribe (New []) fnNilA 1).1 busOne rfl).1
  · exact (must_variants_match_subscribe (New []) strVal 0).2.1 (New []) _ rfl

/-- C6 theorem (code bug): `New` records the configured size (here 5), but
`subscribe` allocates every async handler's queue with the constant
`defaultAsyncHandlerQueueSize` — the registered handler's queue capacity is
1000, not the bus's configured size. -/
theorem async_queue_capacity_ignores_configured_size :
    (New [5]).queueSize = 5 ∧
    handlersGet (SubscribeAsync (New [5]) fnAsyncNoRet 5).1.handlers
      queryType.string = some [hAsync] ∧
    hAsync.queueCap = defaultAsyncHandlerQueueSize ∧
    hAsync.queueCap = 1000 ∧
    hAsync.queueCap ≠ (New [5]).queueSize := by
  exact ⟨rfl, rfl, rfl, rfl, by decide⟩

def fnNoRet : FnVal := mkFn queryType fun _ _ => []

/-- A sync handler declared with no return values. -/
def busNoRet : EventBus := (Subscribe (New []) fnNoRet 7).1

/-- C8 theorem (code bug): `Subscribe` accepts a sync handler with no return
values (`validateHandler` never looks at the results), and a matching
`Publish` does invoke it — but then faults: the sync dispatch reads
`result[0]` from the empty results slice, a runtime panic, instead of
treating the absent error as success. -/
theorem publish_faults_on_accepted_noreturn_sync_handler :
    (Subscribe (New []) fnNoRet 7).2 = none ∧
    (Publish busNoRet 0 msgQ).2.1 = [Event.invoke 7 0 msgQ] ∧
    (Publish busNoRet 0 msgQ).2.2 =
      .panicked "runtime error: index out of range [0] with length 0" :=
  ⟨rfl, rfl, rfl⟩

/-! ## A model of `handlers.Iter` interleaved with the publishing thread

`Iter` spawns a goroutine that takes the registry lock and then sends every
map entry over an *unbuffered* channel, closing it and releasing the lock
only after the last send.  The publishing thread receives one entry at a
time and processes it (invoking the entry's handlers when its key matches)
before coming back to receive the next one.  Because the channel is
unbuffered, a send completes only at the rendezvous with a receive, so the
goroutine cannot pass its `i+1`-st send — and a fortiori cannot unlock —
until the consumer has finished processing entry `i` and receives again. -/

/-- Joint state of the Iter goroutine and the consumer: `sent` entries have
been handed over, whether the channel was closed, whether the lock was
released, and whether the consumer is currently processing (invoking the
handlers of) the most recently received entry. -/
structure IterSt where
  sent : Nat
  closed : Bool
  unlocked : Bool
  processing : Bool
deriving DecidableEq, Repr

/-- One interleaving step, for a registry snapshot of `n` entries:
`handoff` is the rendezvous of the goroutine's send with the consumer's
receive (the consumer then starts processing the entry); `finish` ends the
consumer's processing of that entry; `closeChan` and `unlock` are the
goroutine's final actions, possible only after all `n` entries were sent. -/
inductive IterStep (n : Nat) : IterSt → IterSt → Prop where
  | handoff (s : IterSt) : s.processing = false → s.closed = false → s.sent < n →
      IterStep n s { s with sent := s.sent + 1, processing := true }
  | finish (s : IterSt) : s.processing = true →
      IterStep n s { s with processing := false }
  | closeChan (s : IterSt) : s.sent = n → s.closed = false →
      IterStep n s { s with closed := true }
  | unlock (s : IterSt) : s.closed = true → s.unlocked = false →
      IterStep n s { s with unlocked := true }

/-- The state right after the goroutine acquired the registry lock. -/
def iterInit : IterSt := ⟨0, false, false, false⟩

/-- States reachable by interleaving the two threads. -/
inductive IterReach (n : Nat) : IterSt → Prop where
  | init : IterReach n iterInit
  | step {s t : IterSt} : IterReach n s → IterStep n s t → IterReach n t

/-- Invariant: the channel is closed only after all `n` entries were handed
over, and the lock is released only after the close. -/
lemma iterReach_invariant {n : Nat} {s : IterSt} (h : IterReach n s) :
    (s.closed = true → s.sent = n) ∧ (s.unlocked = true → s.closed = true) := by
  induction h with
  | init => simp [iterInit]
  | step _ hstep ih =>
      cases hstep with
      | handoff h1 h2 h3 =>
          exact ⟨fun hc => absurd hc (by simp [h2]), fun hu => ih.2 hu⟩
      | finish h1 => exact ih
      | closeChan h1 h2 => exact ⟨fun _ => h1, fun _ => rfl⟩
      | unlock h1 h2 => exact ⟨fun hc => ih.1 hc, fun _ => h1⟩

def otherType : GoType := .named "bus_test.SomeCommand"

def fnOther : FnVal := mkFn otherType fun _ _ => [none]

/-- A bus with handlers under two distinct type keys; the entry for
`msgQ`'s key comes first in the snapshot order. -/
def busTwoKeys : EventBus :=
  (Subscribe (Subscribe (New []) fnNilA 1).1 fnOther 8).1

/-- C10 theorem (code bug): on a registry with two type keys whose first
snapshot entry is the published message's key, there is a reachable
interleaving state in which the consumer is invoking that entry's (sync)
handler while the registry lock is still held — and indeed in *every*
interleaving, while any entry other than the last is being processed the
lock is necessarily still held, because the goroutine cannot reach its
unlock until the consumer finishes and receives the remaining entries. -/
theorem registry_lock_held_during_handler_invocation :
    busTwoKeys.handlers.length = 2
    ∧ (busTwoKeys.handlers.getD 0 ("", [])).1 = msgQ.type.string
    ∧ (∀ h ∈ (busTwoKeys.handlers.getD 0 ("", [])).2, h.isAsync = false)
    ∧ (∃ s : IterSt, IterReach busTwoKeys.handlers.length s ∧
        s.processing = true ∧ s.sent = 1 ∧ s.unlocked = false)
    ∧ (∀ s : IterSt, IterReach busTwoKeys.handlers.length s →
        s.processing = true → s.sent < busTwoKeys.handlers.length →
        s.unlocked = false) := by
  refine ⟨rfl, rfl, ?_, ?_, ?_⟩
  · intro h hm
    rcases List.mem_singleton.mp hm with rfl
    rfl
  · refine ⟨⟨1, false, false, true⟩, ?_, rfl, rfl, rfl⟩
    exact .step .init (.handoff iterInit rfl rfl (by
      show (0 : Nat) < 2
      omega))
  · intro s hs hproc hlt
    by_contra hu
    have hu' : s.unlocked = true := by
      cases hval : s.unlocked
      · exact absurd hval hu
      · rfl
    have hinv := iterReach_invariant hs
    have hsent := hinv.1 (hinv.2 hu')
    omega

/-- Witness for C10's theorem: the single-handoff state — the consumer is
invoking the matching handler of the first of two entries — is reachable,
and by the theorem the lock is still held there. -/
theorem registry_lock_held_during_handler_invocation_witness :
    (⟨1, false, false, true⟩ : IterSt).unlocked = false ∧
    IterReach busTwoKeys.handlers.length ⟨1, false, false, true⟩ := by
  have hr : IterReach busTwoKeys.handlers.length ⟨1, false, false, true⟩ :=
    .step .init (.handoff iterInit rfl rfl (by
      show (0 : Nat) < 2
      omega))
  refine ⟨?_, hr⟩
  exact registry_lock_held_during_handler_invocation.2.2.2.2
    ⟨1, false, false, true⟩ hr rfl (by
      show (1 : Nat) < 2
      omega)

end Bus
